import Mathlib

/-!
Shallow embedding of the disrcibbley-server room/round engine.

Sources embedded here:
* `src/game/antiCheat` (src/unnamed/part_000): `checkCooldown`, `resetSpamCounter`;
* `src/game/wordManager.js`: `getRandomWord`, `maskWord`, `isWordLocked`, `releaseWord`;
* `src/unnamed/part_001` (the socket server, first file): the handlers
  `createRoom`, `joinRoom`, `startGame`, `startRound`, `endRound`, `endGame`,
  `submitGuess`, the `disconnect` handler, `generateRoomCode`,
  `calculateHint`, `calculateScore`, and the room timers.

Modelling conventions:
* JavaScript `Map`s / plain objects used as dictionaries become functions
  `κ → Option α`; updates go through `upd`.
* `Date.now()` becomes an explicit `now : Nat` argument on every event.
* `Math.random()` becomes an explicit stream `rand : Nat → Nat` in the
  environment, consumed through an index kept in the server state; each JS
  draw `Math.floor(Math.random() * n)` is embedded as `rand i % n`.
* JS numbers are embedded as exact integers (`Nat`/`Int`); `Math.floor` of
  a rational expression becomes floor division (`Int.fdiv`, `Nat./`).
* `setInterval`/`setTimeout` become pending-timer records in the state; an
  explicit `fire` event runs a due timer, `clearInterval` removes the
  interval whose handle is stored on the room.
-/

namespace Scribbly

abbrev PlayerId := Nat

/-- Dictionary update (insertion with `some v`, deletion with `none`). -/
def upd {κ α : Type} [DecidableEq κ] (f : κ → Option α) (k : κ) (v : Option α) :
    κ → Option α :=
  fun q => if q = k then v else f q

/-! ## Anti-cheat module (src/unnamed/part_000) -/

def LAST_GUESS_TIMEOUT : Nat := 1000
def SPAM_LIMIT : Nat := 5
def SPAM_WINDOW : Nat := 5000

/-- The per-player burst/spam record held in the `spamCounts` map. -/
structure SpamRecord where
  count : Nat
  lastReset : Nat
deriving DecidableEq, Repr

/-- The per-player cooldown record `{ guess, message }` held in `cooldowns`. -/
structure CooldownRec where
  guess : Nat
  message : Nat
deriving DecidableEq, Repr

inductive ActionType where
  | guess
  | message
deriving DecidableEq, Repr

/-- State of the anti-cheat module: the two module-level `Map`s. -/
structure GuardState where
  cooldowns : PlayerId → Option CooldownRec
  spamCounts : PlayerId → Option SpamRecord

/-- Result object of `checkCooldown`: `{allowed}` or `{allowed, remaining}`. -/
structure CheckResult where
  allowed : Bool
  remaining : Option Int
deriving DecidableEq, Repr

def tyGet (cd : CooldownRec) : ActionType → Nat
  | ActionType.guess => cd.guess
  | ActionType.message => cd.message

def tySet (cd : CooldownRec) : ActionType → Nat → CooldownRec
  | ActionType.guess, v => { cd with guess := v }
  | ActionType.message, v => { cd with message := v }

/-- The tail of `checkCooldown` after the spam-window logic: the
per-action-type cooldown check and, on acceptance, the tracker updates. -/
def cooldownPhase (g : GuardState) (p : PlayerId) (ty : ActionType) (now : Nat)
    (cd : CooldownRec) (sc : SpamRecord) : CheckResult × GuardState :=
  let remaining : Int := (tyGet cd ty : Int) + (LAST_GUESS_TIMEOUT : Int) - (now : Int)
  if 0 < remaining then
    ({ allowed := false, remaining := some remaining }, g)
  else
    ({ allowed := true, remaining := none },
     { cooldowns := upd g.cooldowns p (some (tySet cd ty now)),
       spamCounts := upd g.spamCounts p (some { sc with count := sc.count + 1 }) })

/-- `checkCooldown(playerId, type)` from src/unnamed/part_000 lines 7-38.
Initializes missing records, applies the sliding spam window, then the
per-action cooldown; acceptance updates both trackers. -/
def checkCooldown (g : GuardState) (p : PlayerId) (ty : ActionType) (now : Nat) :
    CheckResult × GuardState :=
  let cd := (g.cooldowns p).getD { guess := 0, message := 0 }
  let sc := (g.spamCounts p).getD { count := 0, lastReset := now }
  let g1 : GuardState :=
    { cooldowns := upd g.cooldowns p (some cd),
      spamCounts := upd g.spamCounts p (some sc) }
  if SPAM_WINDOW < now - sc.lastReset then
    let sc1 : SpamRecord := { count := 0, lastReset := now }
    let g2 := { g1 with spamCounts := upd g1.spamCounts p (some sc1) }
    cooldownPhase g2 p ty now cd sc1
  else if SPAM_LIMIT ≤ sc.count then
    ({ allowed := false,
       remaining := some ((SPAM_WINDOW : Int) - ((now : Int) - (sc.lastReset : Int))) }, g1)
  else
    cooldownPhase g1 p ty now cd sc

/-- `resetSpamCounter(playerId)` (src/unnamed/part_000 lines 40-42):
deletes the player's `spamCounts` entry only. -/
def resetSpamCounter (g : GuardState) (p : PlayerId) : GuardState :=
  { g with spamCounts := upd g.spamCounts p none }

def emptyGuard : GuardState := { cooldowns := fun _ => none, spamCounts := fun _ => none }

/-! ## Word manager (src/game/wordManager.js) -/

def WORD_LOCK_TIME : Nat := 30000

/-- `word.toLowerCase()`. -/
def lowerStr (s : String) : String := String.mk (s.toList.map Char.toLower)

/-- A lock entry of the `activeWords` map: `{ timestamp, difficulty }`. -/
structure WordLockEntry where
  timestamp : Nat
  difficulty : String
deriving DecidableEq, Repr

abbrev ActiveWords := String → Option WordLockEntry

/-- `isWordLocked(word)` (wordManager.js lines 32-36). -/
def isWordLocked (aw : ActiveWords) (word : String) (now : Nat) : Bool :=
  match aw (lowerStr word) with
  | none => false
  | some e => decide (now - e.timestamp < WORD_LOCK_TIME)

/-- `releaseWord(word)` (wordManager.js lines 38-40). -/
def releaseWord (aw : ActiveWords) (word : String) : ActiveWords :=
  upd aw (lowerStr word) none

/-- The while-loop of `maskWord` that draws random positions until
`revealCount` distinct positions are collected.  The JS loop terminates
with probability 1; here the number of random draws is bounded by `fuel`
(every property proved below is independent of the drawn positions). -/
def maskWordLoop : Nat → Nat → Nat → List Nat → (Nat → Nat) → Nat → List Nat × Nat
  | 0, _, _, revealed, _, ri => (revealed, ri)
  | fuel + 1, len, revealCount, revealed, rand, ri =>
    if revealed.length < revealCount then
      let pos := rand ri % len
      let revealed1 := if revealed.contains pos then revealed else revealed ++ [pos]
      maskWordLoop fuel len revealCount revealed1 rand (ri + 1)
    else (revealed, ri)

/-- `array.join(' ')`. -/
def joinSpace : List String → String
  | [] => ""
  | [x] => x
  | x :: y :: t => x ++ " " ++ joinSpace (y :: t)

/-- `maskWord(word)` (wordManager.js lines 15-30) with the default
`revealPercentage = 0.3` (the only way the server calls it); returns the
masked rendering together with the advanced random-stream index.
`Math.floor(chars.length * 0.3)` is embedded as exact `len * 3 / 10`. -/
def maskWord (word : String) (rand : Nat → Nat) (ri : Nat) : String × Nat :=
  if word = "" then ("", ri)
  else
    let chars := word.toList
    let revealCount := max 1 (chars.length * 3 / 10)
    let fuel := chars.length * chars.length + chars.length + 1
    let rr := maskWordLoop fuel chars.length revealCount [0] rand ri
    (joinSpace (chars.enum.map (fun ic =>
       if rr.1.contains ic.1 then String.singleton ic.2 else "_")), rr.2)

/-! ## Scoring and hints (src/unnamed/part_001 lines 35-46) -/

/-- Least number of doublings of `p` needed to reach `2 ^ 52 * q`: the
normalization search of binary64 rounding (fuel-bounded; 1200 covers the
whole binary64 exponent range). -/
def upShifts : Nat → Nat → Nat → Nat
  | 0, _, _ => 0
  | fuel + 1, p, q => if 2 ^ 52 * q ≤ p then 0 else upShifts fuel (2 * p) q + 1

/-- Least number of doublings of `q` needed to bring `p / q` below
`2 ^ 53`. -/
def downShifts : Nat → Nat → Nat → Nat
  | 0, _, _ => 0
  | fuel + 1, p, q => if p < 2 ^ 53 * q then 0 else downShifts fuel p (2 * q) + 1

/-- Round `bigN / bigQ` to the nearest integer, ties to even. -/
def roundHalfEven (bigN bigQ : Nat) : Nat :=
  let m0 := bigN / bigQ
  let r := bigN % bigQ
  if 2 * r < bigQ then m0
  else if bigQ < 2 * r then m0 + 1
  else if m0 % 2 = 0 then m0 else m0 + 1

/-- The IEEE-754 binary64 rounding (round to nearest, ties to even) of the
nonnegative rational `p / q`, returned as a dyadic pair (numerator,
power-of-two denominator): the quotient is scaled into the mantissa range
`[2 ^ 52, 2 ^ 53)` and rounded there.  The normal range is modelled;
overflow and subnormals (unreachable for round-timer values) are not, and
`q = 0` (a JS division by zero, yielding Infinity) is mapped to 0. -/
def fl64Pos (p q : Nat) : Nat × Nat :=
  if p = 0 then (0, 1)
  else if q = 0 then (0, 1)
  else
    let u := upShifts 1200 p q
    let d := downShifts 1200 (p * 2 ^ u) q
    (roundHalfEven (p * 2 ^ u) (q * 2 ^ d) * 2 ^ d, 2 ^ u)

/-- `calculateScore(timeLeft, roundTime) = Math.floor(100 * (timeLeft / roundTime))`
(part_001 lines 43-46) with JS number arithmetic modelled as IEEE-754
binary64: the division `timeLeft / roundTime` and the product with 100 each
round to nearest (ties to even), and `Math.floor` then takes the exact
floor of the resulting dyadic value.  This can fall below the exact
rational floor: at `timeLeft = 29`, `roundTime = 100` the doubles evaluate
to 28.999999999999996 and the score is 28, not 29. -/
def calculateScore (timeLeft : Int) (roundTime : Nat) : Int :=
  let d1 := fl64Pos timeLeft.natAbs roundTime
  let d2 := fl64Pos (100 * d1.1) d1.2
  if 0 ≤ timeLeft then Int.fdiv (d2.1 : Int) (d2.2 : Int)
  else Int.fdiv (-(d2.1 : Int)) (d2.2 : Int)

/-- `word[0]` as it appears inside a template literal (an empty string
renders as the text `undefined`). -/
def firstChar (w : String) : String :=
  match w.toList with
  | [] => "undefined"
  | c :: _ => String.singleton c

def lastChar (w : String) : String :=
  match w.toList.getLast? with
  | none => "undefined"
  | some c => String.singleton c

/-- `calculateHint(word, timeElapsed, roundTime)` with the float threshold
comparisons `progress < 0.3 / 0.6 / 0.8` embedded as exact rational
comparisons `10 * timeElapsed < 3 (6, 8) * roundTime`. -/
def calculateHint (word : String) (timeElapsed : Int) (roundTime : Nat) : String :=
  if timeElapsed * 10 < (roundTime : Int) * 3 then ""
  else if timeElapsed * 10 < (roundTime : Int) * 6 then
    "It has " ++ toString word.length ++ " letters"
  else if timeElapsed * 10 < (roundTime : Int) * 8 then
    "Starts with: " ++ firstChar word
  else
    "Starts with: " ++ firstChar word ++ "..." ++ lastChar word

/-! ## Server data model (src/unnamed/part_001) -/

/-- An entry of a room's `players` array. -/
structure Player where
  id : PlayerId
  name : String
  isHost : Bool
  avatar : Nat
deriving DecidableEq, Repr

inductive RoomPhase where
  | lobby
  | playing
  | ended
deriving DecidableEq, Repr

/-- The `settings` object passed to `startGame`. -/
structure Settings where
  rounds : Nat
  roundTime : Nat
  difficulty : String
deriving DecidableEq, Repr

/-- `room.gameState`.  Fields that JS leaves `undefined` until `startRound`
assigns them (`currentDrawerName`, `word`, `timer`, `hint`, ...) carry inert
defaults here; they are never read before `startRound` sets them, except
`currentDrawer`, whose `undefined` state is observable through the
previous-drawer filter and is therefore an `Option`. -/
structure GameState where
  rounds : Nat
  currentRound : Nat
  roundTime : Nat
  difficulty : String
  scores : PlayerId → Option Int
  playersWhoGuessed : List PlayerId
  allPlayers : List PlayerId
  avatars : PlayerId → Option Nat
  currentDrawer : Option PlayerId
  currentDrawerName : String := ""
  currentDrawerAvatar : Nat := 0
  word : String := ""
  drawing : Option Nat := none
  timer : Int := 0
  hint : String := ""

/-- An entry of the `rooms` object. -/
structure Room where
  players : List Player
  host : PlayerId
  state : RoomPhase
  settings : Option Settings
  gameState : Option GameState
  timerInterval : Option Nat

/-- An entry of the `players` reverse-index object. -/
structure PlayerInfo where
  room : String
  name : String
  isHost : Bool
  avatar : Nat
deriving DecidableEq, Repr

inductive TimerKind where
  | tick
  | grace
  | interRound
deriving DecidableEq, Repr

/-- A scheduled `setInterval`/`setTimeout` callback that has not fired. -/
structure PendingTimer where
  id : Nat
  room : String
  kind : TimerKind
  fireAt : Nat
deriving DecidableEq, Repr

/-- Outbound socket messages (payloads as enumerated by the emit sites). -/
inductive Msg where
  | playerUpdate (ps : List Player)
  | roundStarted (drawer : PlayerId) (drawerName : String) (drawerAvatar : Nat)
      (round : Nat) (totalRounds : Nat) (timer : Nat)
  | wordUpdate (w : String)
  | hint (h : String)
  | timerUpdate (t : Int)
  | roundEnded (scores : PlayerId → Option Int) (nextRoundIn : Nat)
  | gameEnded (scores : PlayerId → Option Int)
      (finalPlayers : List (PlayerId × String × Nat × Int))
  | correctGuess (player : String) (guess : String) (isYou : Bool) (score : Int)
  | gameMessage (player : String) (playerId : PlayerId) (text : String)
      (correct : Bool) (timestamp : Nat)
  | newHost (pid : PlayerId)

/-- One emission, tagged with its audience: the whole room channel
(`io.to(roomCode)`), a single socket (`io.to(socket.id)`), the room channel
minus the sender (`socket.to(roomCode)`), or an acknowledgement callback. -/
inductive Emit where
  | toRoom (room : String) (m : Msg)
  | toPlayer (pid : PlayerId) (m : Msg)
  | fromSenderToRoom (room : String) (sender : PlayerId) (m : Msg)
  | callbackRoomCode (pid : PlayerId) (code : String)
  | callbackError (pid : PlayerId) (err : String)
  | callbackSuccess (pid : PlayerId) (ps : List Player)

/-- The whole mutable server state: the module-level objects of
src/unnamed/part_001 plus the anti-cheat and word-manager module state and
the pending timers. -/
structure ServerState where
  rooms : String → Option Room
  players : PlayerId → Option PlayerInfo
  playerAvatars : PlayerId → Option Nat
  guard : GuardState
  activeWords : ActiveWords
  timers : List PendingTimer
  nextTimerId : Nat
  randIdx : Nat

/-- External environment: the random stream and the word lists loaded from
`words.json` (the data file is not part of the sources; the lists are an
opaque configuration parameter). -/
structure Env where
  rand : Nat → Nat
  wordLists : String → Option (List String)

def initState : ServerState :=
  { rooms := fun _ => none, players := fun _ => none, playerAvatars := fun _ => none,
    guard := emptyGuard, activeWords := fun _ => none, timers := [],
    nextTimerId := 0, randIdx := 0 }

/-! ## Handlers -/

def roomCodeChars : List Char := "ABCDEFGHJKLMNPQRSTUVWXYZ".toList

/-- `generateRoomCode()` (part_001 lines 421-428): four draws from the
24-letter alphabet; returns the code and the advanced random index. -/
def generateRoomCode (env : Env) (ri : Nat) : String × Nat :=
  let c := fun k => roomCodeChars.getD (env.rand (ri + k) % roomCodeChars.length) 'A'
  (String.mk [c 0, c 1, c 2, c 3], ri + 4)

/-- The `createRoom` handler (part_001 lines 52-80).  Note: the generated
code is used without any collision check against existing rooms. -/
def createRoom (env : Env) (s : ServerState) (pid : PlayerId) (playerName : String)
    (avatar : Nat) : ServerState × List Emit :=
  let rc := generateRoomCode env s.randIdx
  let player : Player := { id := pid, name := playerName, isHost := true, avatar := avatar }
  let room : Room :=
    { players := [player], host := pid, state := RoomPhase.lobby,
      settings := none, gameState := none, timerInterval := none }
  let s1 := { s with
    rooms := upd s.rooms rc.1 (some room),
    players := upd s.players pid
      (some { room := rc.1, name := playerName, isHost := true, avatar := avatar }),
    playerAvatars := upd s.playerAvatars pid (some avatar),
    randIdx := rc.2 }
  (s1, [Emit.callbackRoomCode pid rc.1,
        Emit.toRoom rc.1 (Msg.playerUpdate [player])])

/-- The `joinRoom` handler (part_001 lines 82-107). -/
def joinRoom (s : ServerState) (pid : PlayerId) (roomCode : String)
    (playerName : String) (avatar : Nat) : ServerState × List Emit :=
  match s.rooms roomCode with
  | none => (s, [Emit.callbackError pid "Room not found"])
  | some room =>
    if room.state ≠ RoomPhase.lobby then (s, [Emit.callbackError pid "Game already started"])
    else if 8 ≤ room.players.length then (s, [Emit.callbackError pid "Room is full"])
    else
      let player : Player := { id := pid, name := playerName, isHost := false, avatar := avatar }
      let room1 := { room with players := room.players ++ [player] }
      let s1 := { s with
        rooms := upd s.rooms roomCode (some room1),
        players := upd s.players pid
          (some { room := roomCode, name := playerName, isHost := false, avatar := avatar }),
        playerAvatars := upd s.playerAvatars pid (some avatar) }
      (s1, [Emit.toRoom roomCode (Msg.playerUpdate room1.players),
            Emit.callbackSuccess pid room1.players])

/-- `room.players.reduce((acc, p) => { acc[p.id] = p.avatar; ... }, {})`. -/
def buildAvatars (ps : List Player) : PlayerId → Option Nat :=
  ps.foldl (fun acc p => upd acc p.id (some p.avatar)) (fun _ => none)

/-- `startRound(roomCode)` (part_001 lines 153-208): drawer selection
excluding the previous drawer, word draw (which locks the word in the word
manager, wordManager.js lines 5-13), round-state reset, interval start and
the `roundStarted`/`wordUpdate` emissions.  The two branches the model
returns `(s, [])` on are states where the JS code would throw
(`gameState` absent, or no eligible drawer). -/
def startRound (env : Env) (s : ServerState) (roomCode : String) (now : Nat) :
    ServerState × List Emit :=
  match s.rooms roomCode with
  | none => (s, [])
  | some room =>
    match room.gameState with
    | none => (s, [])
    | some gs =>
      let eligible := room.players.filter (fun p => gs.currentDrawer ≠ some p.id)
      match eligible.get? (env.rand s.randIdx % eligible.length) with
      | none => ({ s with randIdx := s.randIdx + 1 }, [])
      | some drawer =>
        let list := (env.wordLists gs.difficulty).getD ((env.wordLists "easy").getD [])
        let word := list.getD (env.rand (s.randIdx + 1) % list.length) ""
        let aw := upd s.activeWords (lowerStr word)
          (some { timestamp := now, difficulty := gs.difficulty })
        let gs1 := { gs with
          currentDrawer := some drawer.id, currentDrawerName := drawer.name,
          currentDrawerAvatar := drawer.avatar, word := word,
          playersWhoGuessed := [], drawing := none,
          timer := (gs.roundTime : Int), hint := "" }
        let tid := s.nextTimerId
        let room1 := { room with gameState := some gs1, timerInterval := some tid }
        let s1 := { s with
          rooms := upd s.rooms roomCode (some room1),
          activeWords := aw,
          timers := s.timers ++
            [{ id := tid, room := roomCode, kind := TimerKind.tick, fireAt := now + 1000 }],
          nextTimerId := tid + 1,
          randIdx := s.randIdx + 2 }
        (s1, [Emit.toRoom roomCode (Msg.roundStarted drawer.id drawer.name drawer.avatar
                gs.currentRound gs.rounds gs.roundTime),
              Emit.toPlayer drawer.id (Msg.wordUpdate word)])

/-- The `startGame` handler (part_001 lines 126-151): host-only, lobby-only;
installs a fresh `gameState` and calls `startRound`.  There is no minimum
player-count check. -/
def startGame (env : Env) (s : ServerState) (pid : PlayerId) (settings : Settings)
    (now : Nat) : ServerState × List Emit :=
  match s.players pid with
  | none => (s, [])
  | some pinfo =>
    if pinfo.isHost = false then (s, [])
    else
      match s.rooms pinfo.room with
      | none => (s, [])
      | some room =>
        if room.state ≠ RoomPhase.lobby then (s, [])
        else
          let gs : GameState :=
            { rounds := settings.rounds, currentRound := 1,
              roundTime := settings.roundTime, difficulty := settings.difficulty,
              scores := fun _ => none, playersWhoGuessed := [],
              allPlayers := room.players.map Player.id,
              avatars := buildAvatars room.players, currentDrawer := none }
          let room1 := { room with
            state := RoomPhase.playing, settings := some settings, gameState := some gs }
          let s1 := { s with rooms := upd s.rooms pinfo.room (some room1) }
          startRound env s1 pinfo.room now

/-- `clearInterval(handle)`: removes the pending timer with that id (a no-op
on `undefined` or an already-cleared handle). -/
def clearIntervalS (s : ServerState) (h : Option Nat) : ServerState :=
  match h with
  | none => s
  | some tid => { s with timers := s.timers.filter (fun t => t.id ≠ tid) }

/-- `endGame(roomCode)` (part_001 lines 231-245). -/
def endGame (s : ServerState) (roomCode : String) : ServerState × List Emit :=
  match s.rooms roomCode with
  | none => (s, [])
  | some room =>
    let s1 := { s with rooms := upd s.rooms roomCode (some { room with state := RoomPhase.ended }) }
    match room.gameState with
    | none => (s1, [])
    | some gs =>
      (s1, [Emit.toRoom roomCode (Msg.gameEnded gs.scores
        (room.players.map (fun p => (p.id, p.name, p.avatar, (gs.scores p.id).getD 0))))])

/-- `endRound(roomCode)` (part_001 lines 210-229): clears the stored
interval, releases the word lock, then either ends the game or advances
`currentRound`, emits `roundEnded` and schedules the next round 3000 ms
out. -/
def endRound (s : ServerState) (roomCode : String) (now : Nat) : ServerState × List Emit :=
  match s.rooms roomCode with
  | none => (s, [])
  | some room =>
    let s1 := clearIntervalS s room.timerInterval
    match room.gameState with
    | none => (s1, [])
    | some gs =>
      let s2 := { s1 with activeWords := releaseWord s1.activeWords gs.word }
      if gs.rounds ≤ gs.currentRound then
        endGame s2 roomCode
      else
        let gs1 := { gs with currentRound := gs.currentRound + 1 }
        let tid := s2.nextTimerId
        let s3 := { s2 with
          rooms := upd s2.rooms roomCode (some { room with gameState := some gs1 }),
          timers := s2.timers ++
            [{ id := tid, room := roomCode, kind := TimerKind.interRound, fireAt := now + 3000 }],
          nextTimerId := tid + 1 }
        (s3, [Emit.toRoom roomCode (Msg.roundEnded gs1.scores 3000)])

/-- The body of the `setInterval` callback installed by `startRound`
(part_001 lines 173-195): decrement the timer, recompute and conditionally
broadcast the hint, always broadcast the timer, and end the round at zero.
The callback closes over the room object; after the room entry is deleted
its effects are unobservable, which the model renders as a no-op that keeps
the interval scheduled. -/
def tickBody (s : ServerState) (roomCode : String) (now : Nat) : ServerState × List Emit :=
  match s.rooms roomCode with
  | none => (s, [])
  | some room =>
    match room.gameState with
    | none => (s, [])
    | some gs =>
      let t1 : Int := gs.timer - 1
      let newHint := calculateHint gs.word ((gs.roundTime : Int) - t1) gs.roundTime
      let hintEmits : List Emit :=
        if newHint ≠ gs.hint then [Emit.toRoom roomCode (Msg.hint newHint)] else []
      let gs1 := { gs with timer := t1, hint := newHint }
      let s1 := { s with rooms := upd s.rooms roomCode (some { room with gameState := some gs1 }) }
      let emits := hintEmits ++ [Emit.toRoom roomCode (Msg.timerUpdate t1)]
      if t1 ≤ 0 then
        let s2 := clearIntervalS s1 room.timerInterval
        let r := endRound s2 roomCode now
        (r.1, emits ++ r.2)
      else (s1, emits)

/-- The `submitGuess` handler (part_001 lines 276-349).  The anti-cheat
check runs (and commits its tracker updates) before any room-state check;
`Math.floor(score * 0.5)` is `Int.fdiv score 2`. -/
def submitGuess (env : Env) (s : ServerState) (pid : PlayerId) (guess : String)
    (now : Nat) : ServerState × List Emit :=
  match s.players pid with
  | none => (s, [])
  | some pinfo =>
    let chk := checkCooldown s.guard pid ActionType.guess now
    let s1 := { s with guard := chk.2 }
    if chk.1.allowed = false then (s1, [])
    else
      match s1.rooms pinfo.room with
      | none => (s1, [])
      | some room =>
        if room.state ≠ RoomPhase.playing then (s1, [])
        else
          match room.gameState with
          | none => (s1, [])
          | some gs =>
            if some pid = gs.currentDrawer then (s1, [])
            else if gs.playersWhoGuessed.contains pid then (s1, [])
            else if lowerStr guess = lowerStr gs.word then
              let score := calculateScore gs.timer gs.roundTime
              let scores1 := upd gs.scores pid (some ((gs.scores pid).getD 0 + score))
              let drawerScore := Int.fdiv score 2
              let did := gs.currentDrawer.getD 0
              let scores2 := upd scores1 did (some ((scores1 did).getD 0 + drawerScore))
              let guessed1 := gs.playersWhoGuessed ++ [pid]
              let mk := if 2 < room.players.length
                        then maskWord gs.word env.rand s1.randIdx
                        else (gs.word, s1.randIdx)
              let gs1 := { gs with scores := scores2, playersWhoGuessed := guessed1 }
              let room1 := { room with gameState := some gs1 }
              let s2 := { s1 with rooms := upd s1.rooms pinfo.room (some room1), randIdx := mk.2 }
              let baseEmits := [
                Emit.toPlayer pid (Msg.correctGuess pinfo.name gs.word true score),
                Emit.fromSenderToRoom pinfo.room pid (Msg.correctGuess pinfo.name mk.1 false score)]
              let allGuessed := gs.allPlayers.all
                (fun q => gs.currentDrawer == some q || guessed1.contains q)
              if allGuessed then
                let s3 := clearIntervalS s2 room.timerInterval
                let tid := s3.nextTimerId
                let s4 := { s3 with
                  timers := s3.timers ++
                    [{ id := tid, room := pinfo.room, kind := TimerKind.grace, fireAt := now + 2000 }],
                  nextTimerId := tid + 1 }
                (s4, baseEmits)
              else (s2, baseEmits)
            else
              (s1, [Emit.toRoom pinfo.room (Msg.gameMessage pinfo.name pid guess false now)])

/-- The `disconnect` handler (part_001 lines 382-417): roster removal,
reverse-index and avatar deletion, spam-counter reset; then either the
empty-room deletion (which performs no timer or word-lock cleanup) or
`playerUpdate`, host transfer, and the drawer-disconnect round end. -/
def disconnectHandler (s : ServerState) (pid : PlayerId) (now : Nat) :
    ServerState × List Emit :=
  match s.players pid with
  | none => (s, [])
  | some pinfo =>
    match s.rooms pinfo.room with
    | none => (s, [])
    | some room =>
      let remaining := room.players.filter (fun q => q.id ≠ pid)
      let s1 : ServerState := { s with
        rooms := upd s.rooms pinfo.room (some { room with players := remaining }),
        players := upd s.players pid none,
        playerAvatars := upd s.playerAvatars pid none,
        guard := resetSpamCounter s.guard pid }
      if remaining.length = 0 then
        ({ s1 with rooms := upd s1.rooms pinfo.room none }, [])
      else
        let e1 := [Emit.toRoom pinfo.room (Msg.playerUpdate remaining)]
        let step2 :=
          if pid = room.host then
            match remaining.head? with
            | none => (s1, ([] : List Emit))
            | some nh =>
              ({ s1 with
                  rooms := upd s1.rooms pinfo.room
                    (some { room with players := remaining, host := nh.id }),
                  players := fun q =>
                    if q = nh.id then (s1.players q).map (fun pi => { pi with isHost := true })
                    else s1.players q },
               [Emit.toRoom pinfo.room (Msg.newHost nh.id)])
          else (s1, ([] : List Emit))
        let s2 := step2.1
        let step3 :=
          match s2.rooms pinfo.room with
          | none => (s2, ([] : List Emit))
          | some room2 =>
            if room2.state = RoomPhase.playing ∧
                (room2.gameState.bind (fun gs => gs.currentDrawer)) = some pid then
              endRound (clearIntervalS s2 room2.timerInterval) pinfo.room now
            else (s2, ([] : List Emit))
        (step3.1, e1 ++ step2.2 ++ step3.2)

/-! ## Event semantics -/

inductive Event where
  | createRoom (pid : PlayerId) (name : String) (avatar : Nat)
  | joinRoom (pid : PlayerId) (code : String) (name : String) (avatar : Nat)
  | startGame (pid : PlayerId) (settings : Settings) (now : Nat)
  | submitGuess (pid : PlayerId) (guess : String) (now : Nat)
  | disconnect (pid : PlayerId) (now : Nat)
  | fire (tid : Nat) (now : Nat)

/-- Run a due scheduled timer: an interval tick reschedules itself 1000 ms
out before its body runs; the one-shot grace and inter-round timeouts are
consumed. -/
def fireTimer (env : Env) (s : ServerState) (tid : Nat) (now : Nat) :
    ServerState × List Emit :=
  match s.timers.find? (fun t => t.id == tid) with
  | none => (s, [])
  | some t =>
    if t.fireAt ≤ now then
      match t.kind with
      | TimerKind.tick =>
        let s1 := { s with timers := s.timers.map (fun u =>
          if u.id == tid then { u with fireAt := u.fireAt + 1000 } else u) }
        tickBody s1 t.room now
      | TimerKind.grace =>
        let s1 := { s with timers := s.timers.filter (fun u => u.id ≠ tid) }
        endRound s1 t.room now
      | TimerKind.interRound =>
        let s1 := { s with timers := s.timers.filter (fun u => u.id ≠ tid) }
        startRound env s1 t.room now
    else (s, [])

def exec (env : Env) (s : ServerState) : Event → ServerState × List Emit
  | Event.createRoom pid name av => createRoom env s pid name av
  | Event.joinRoom pid code name av => joinRoom s pid code name av
  | Event.startGame pid settings now => startGame env s pid settings now
  | Event.submitGuess pid guess now => submitGuess env s pid guess now
  | Event.disconnect pid now => disconnectHandler s pid now
  | Event.fire tid now => fireTimer env s tid now

def run (env : Env) : ServerState → List Event → ServerState × List Emit
  | s, [] => (s, [])
  | s, e :: t =>
    let r := exec env s e
    let r2 := run env r.1 t
    (r2.1, r.2 ++ r2.2)

/-! ## Concrete environments and traces used by the claim theorems -/

/-- A deterministic environment: every random draw is 0 (so generated room
codes are `AAAA`, the drawer is the first eligible player, the word is the
first list entry), and the easy list is `["apple"]`. -/
def envZ : Env :=
  { rand := fun _ => 0,
    wordLists := fun d => if d = "easy" then some ["apple"] else none }

/-- An environment whose random stream is the identity, so successive
`createRoom` calls generate distinct codes (`ABCD`, then `EFGH`, ...). -/
def envI : Env :=
  { rand := fun i => i,
    wordLists := fun d => if d = "easy" then some ["apple"] else none }

def msgOf : Emit → Option Msg
  | Emit.toRoom _ m => some m
  | Emit.toPlayer _ m => some m
  | Emit.fromSenderToRoom _ _ m => some m
  | _ => none

def isRoundEnded : Msg → Bool
  | Msg.roundEnded _ _ => true
  | _ => false

def isRoundStarted : Msg → Bool
  | Msg.roundStarted _ _ _ _ _ _ => true
  | _ => false

def countMsgs (f : Msg → Bool) (l : List Emit) : Nat :=
  (l.filterMap msgOf).countP f

/-- C1 failing input: a one-player lobby whose host issues `startGame`. -/
def c1Trace : List Event :=
  [Event.createRoom 1 "alice" 7,
   Event.startGame 1 { rounds := 3, roundTime := 60, difficulty := "easy" } 20000]

def c1Run : ServerState × List Emit := run envZ initState c1Trace

/-- C1: the claim says a `startGame` request from the host of a lobby room
with fewer than 2 members is rejected as a no-op (room stays in lobby, no
round state, no round start).  Evaluating the `startGame` handler at such a
room shows the opposite: the handler has no player-count check, so the
one-member room transitions to `playing`, a `gameState` is created, and
round 1 starts (`roundStarted` is emitted). -/
theorem C1_startGame_single_player_starts :
    ((c1Run.1.rooms "AAAA").map (fun r => r.players.length)) = some 1 ∧
    ((c1Run.1.rooms "AAAA").map Room.state) = some RoomPhase.playing ∧
    ((c1Run.1.rooms "AAAA").bind Room.gameState).isSome = true ∧
    countMsgs isRoundStarted c1Run.2 = 1 := by
  refine ⟨by decide, by decide, by decide, by decide⟩

/-- C2 failing input: three players; all non-drawers guess (scheduling the
2-second grace timeout), the drawer disconnects (ending the round at once),
then the grace timeout fires and ends the same round again. -/
def c2Trace : List Event :=
  [Event.createRoom 1 "alice" 7,
   Event.joinRoom 2 "AAAA" "bob" 8,
   Event.joinRoom 3 "AAAA" "carol" 9,
   Event.startGame 1 { rounds := 3, roundTime := 60, difficulty := "easy" } 20000,
   Event.submitGuess 2 "apple" 20100,
   Event.submitGuess 3 "apple" 20200,
   Event.disconnect 1 21000,
   Event.fire 1 22200]

def c2Run : ServerState × List Emit := run envZ initState c2Trace

/-- C2: the claim says each round's end occurs exactly once, even when the
2-second all-guessed grace timer and a drawer disconnect overlap.  In the
reachable execution `c2Trace` (3 players, all non-drawers guess — which
clears the interval and schedules the grace timeout — then the drawer
disconnects at 21000 and the grace timeout fires at 22200), `endRound` runs
twice for round 1: `roundEnded` is emitted twice and `currentRound` is
incremented twice (1 to 3) although only one round was ever started. -/
theorem C2_round_end_fires_twice :
    countMsgs isRoundStarted c2Run.2 = 1 ∧
    countMsgs isRoundEnded c2Run.2 = 2 ∧
    ((c2Run.1.rooms "AAAA").bind Room.gameState).map GameState.currentRound = some 3 := by
  refine ⟨by decide, by decide, by decide⟩

/-- C4 failing input: a single-player playing room whose only member (the
drawer) disconnects, leaving the room empty. -/
def c4Trace : List Event :=
  [Event.createRoom 1 "alice" 7,
   Event.startGame 1 { rounds := 3, roundTime := 60, difficulty := "easy" } 20000,
   Event.disconnect 1 20500]

def c4Run : ServerState × List Emit := run envZ initState c4Trace

/-- C4: the claim says that when the last player disconnects the room is
destroyed AND the active round timer is canceled AND the round word's lock
is released.  Evaluating the disconnect handler's empty-room branch (which
only executes `delete rooms[roomCode]`) shows the room entry is removed but
the round's interval timer is still pending and the word `apple` is still
locked afterwards (`isWordLocked` returns true). -/
theorem C4_empty_room_cleanup_incomplete :
    (c4Run.1.rooms "AAAA").isSome = false ∧
    (c4Run.1.timers.map PendingTimer.kind) = [TimerKind.tick] ∧
    isWordLocked c4Run.1.activeWords "apple" 20600 = true := by
  refine ⟨by decide, by decide, by decide⟩

/-- Run `checkCooldown` over a sequence of (kind, time) actions of one
player, collecting the `allowed` results. -/
def runGuard (p : PlayerId) : GuardState → List (ActionType × Nat) → GuardState × List Bool
  | g, [] => (g, [])
  | g, a :: rest =>
    let r := checkCooldown g p a.1 a.2
    let r2 := runGuard p r.2 rest
    (r2.1, r.1.allowed :: r2.2)

/-- C7 counterexample input: five accepted actions fill the burst budget, a
sixth same-kind action at t = 14500 is rejected, and the same-kind action at
t + 999 = 15499 is accepted (the spam window rolled over). -/
def c7CtrSeq : List (ActionType × Nat) :=
  [(ActionType.guess, 10000), (ActionType.message, 10001),
   (ActionType.guess, 11001), (ActionType.message, 11002),
   (ActionType.guess, 12002), (ActionType.guess, 14500), (ActionType.guess, 15499)]

/-- C7 counterexample: the claim says any two same-kind actions at times t
and t + 999 ms have the second rejected regardless of the burst count.  In
the concrete reachable sequence `c7CtrSeq` the sixth and seventh actions are
same-kind guesses at t = 14500 and t + 999 = 15499, yet the seventh is
accepted: the sixth was rejected by the burst limit (leaving the guess
timestamp at 12002), and by 15499 the 5000 ms window had rolled over. -/
theorem C7_cooldown_999ms_counterexample :
    (runGuard 1 emptyGuard c7CtrSeq).2 =
      [true, true, true, true, true, false, true] := by decide

/-- C7 scenario input: six actions inside one 5000 ms window, accepted
same-kind actions at least 1000 ms apart. -/
def c7WindowSeq : List (ActionType × Nat) :=
  [(ActionType.guess, 10000), (ActionType.message, 10001),
   (ActionType.guess, 11001), (ActionType.message, 11002),
   (ActionType.guess, 12002), (ActionType.message, 12003)]


/-- C5 counterexample state: the guard state after one accepted guess. -/
def c5Guard : GuardState := (checkCooldown emptyGuard 1 ActionType.guess 10000).2

/-- C5 counterexample: the claim says the reset performed on disconnect
clears all cooldown and spam state, so a later action is evaluated as if it
were the player's first-ever action.  But `resetSpamCounter` deletes only
the `spamCounts` entry: after an accepted guess at 10000 and a reset, a
guess at 10500 is rejected (the surviving per-kind timestamp is 500 ms
old), while a genuinely fresh player's guess at 10500 is accepted. -/
theorem C5_reset_counterexample :
    (checkCooldown (resetSpamCounter c5Guard 1) 1 ActionType.guess 10500).1.allowed = false ∧
    (checkCooldown emptyGuard 1 ActionType.guess 10500).1.allowed = true := by
  refine ⟨by decide, by decide⟩

/-! ## Helper lemmas about `checkCooldown` -/

/-- If the player's stored per-kind timestamp is less than 1000 ms old, the
action is rejected no matter what the spam window holds. -/
theorem checkCooldown_stamp_active_rejects (g : GuardState) (p : PlayerId) (ty : ActionType)
    (now : Nat) (cd : CooldownRec) (hc : g.cooldowns p = some cd)
    (hlt : now < tyGet cd ty + LAST_GUESS_TIMEOUT) :
    (checkCooldown g p ty now).1.allowed = false := by
  have hrem : (0 : Int) < (tyGet cd ty : Int) + (LAST_GUESS_TIMEOUT : Int) - (now : Int) := by
    omega
  unfold checkCooldown cooldownPhase
  rw [hc]
  simp only [Option.getD_some]
  by_cases hroll :
      SPAM_WINDOW < now - ((g.spamCounts p).getD { count := 0, lastReset := now }).lastReset
  · rw [if_pos hroll, if_pos hrem]
  · rw [if_neg hroll]
    by_cases hcnt : SPAM_LIMIT ≤ ((g.spamCounts p).getD { count := 0, lastReset := now }).count
    · rw [if_pos hcnt]
    · rw [if_neg hcnt, if_pos hrem]

/-- Acceptance postcondition: the per-kind timestamp is set to `now` and the
burst counter (reset first if the window rolled over) is incremented. -/
theorem checkCooldown_accept_updates (g : GuardState) (p : PlayerId) (ty : ActionType)
    (now : Nat) (cd : CooldownRec) (sc : SpamRecord)
    (hc : g.cooldowns p = some cd) (hs : g.spamCounts p = some sc)
    (hacc : (checkCooldown g p ty now).1.allowed = true) :
    (checkCooldown g p ty now).2.cooldowns p = some (tySet cd ty now) ∧
    (checkCooldown g p ty now).2.spamCounts p = some
      { count := (if SPAM_WINDOW < now - sc.lastReset then 0 else sc.count) + 1,
        lastReset := if SPAM_WINDOW < now - sc.lastReset then now else sc.lastReset } := by
  unfold checkCooldown cooldownPhase at hacc ⊢
  rw [hc, hs] at hacc ⊢
  simp only [Option.getD_some] at hacc ⊢
  by_cases hroll : SPAM_WINDOW < now - sc.lastReset
  · rw [if_pos hroll] at hacc ⊢
    by_cases hrem : (0 : Int) < (tyGet cd ty : Int) + (LAST_GUESS_TIMEOUT : Int) - (now : Int)
    · rw [if_pos hrem] at hacc
      exact absurd hacc (by simp)
    · rw [if_neg hrem] at hacc ⊢
      simp [upd, hroll]
  · rw [if_neg hroll] at hacc ⊢
    by_cases hcnt : SPAM_LIMIT ≤ sc.count
    · rw [if_pos hcnt] at hacc
      exact absurd hacc (by simp)
    · rw [if_neg hcnt] at hacc ⊢
      by_cases hrem : (0 : Int) < (tyGet cd ty : Int) + (LAST_GUESS_TIMEOUT : Int) - (now : Int)
      · rw [if_pos hrem] at hacc
        exact absurd hacc (by simp)
      · rw [if_neg hrem] at hacc ⊢
        simp [upd, hroll]

/-- Rejection postcondition for an already-tracked player: the cooldown map
is untouched, and the spam record is untouched unless the window rolled
over, in which case it is reset to a fresh window starting at `now`. -/
theorem checkCooldown_reject_frame (g : GuardState) (p : PlayerId) (ty : ActionType)
    (now : Nat) (cd : CooldownRec) (sc : SpamRecord)
    (hc : g.cooldowns p = some cd) (hs : g.spamCounts p = some sc)
    (hrej : (checkCooldown g p ty now).1.allowed = false) :
    (checkCooldown g p ty now).2.cooldowns = g.cooldowns ∧
    (now - sc.lastReset ≤ SPAM_WINDOW → (checkCooldown g p ty now).2.spamCounts = g.spamCounts) ∧
    (SPAM_WINDOW < now - sc.lastReset →
      (checkCooldown g p ty now).2.spamCounts p = some { count := 0, lastReset := now }) := by
  have hce : upd g.cooldowns p (some cd) = g.cooldowns := by
    funext q
    by_cases hq : q = p
    · rw [hq, hc]; simp [upd]
    · simp [upd, hq]
  have hse : upd g.spamCounts p (some sc) = g.spamCounts := by
    funext q
    by_cases hq : q = p
    · rw [hq, hs]; simp [upd]
    · simp [upd, hq]
  unfold checkCooldown cooldownPhase at hrej ⊢
  rw [hc, hs] at hrej ⊢
  simp only [Option.getD_some] at hrej ⊢
  by_cases hroll : SPAM_WINDOW < now - sc.lastReset
  · rw [if_pos hroll] at hrej ⊢
    by_cases hrem : (0 : Int) < (tyGet cd ty : Int) + (LAST_GUESS_TIMEOUT : Int) - (now : Int)
    · rw [if_pos hrem]
      refine ⟨hce, fun hw => absurd hroll (by omega), fun _ => by simp [upd]⟩
    · rw [if_neg hrem] at hrej
      exact absurd hrej (by simp)
  · rw [if_neg hroll] at hrej ⊢
    by_cases hcnt : SPAM_LIMIT ≤ sc.count
    · rw [if_pos hcnt]
      refine ⟨hce, fun _ => hse, fun hw => absurd hw hroll⟩
    · rw [if_neg hcnt] at hrej ⊢
      by_cases hrem : (0 : Int) < (tyGet cd ty : Int) + (LAST_GUESS_TIMEOUT : Int) - (now : Int)
      · rw [if_pos hrem]
        refine ⟨hce, fun _ => hse, fun hw => absurd hw hroll⟩
      · rw [if_neg hrem] at hrej
        exact absurd hrej (by simp)

theorem tyGet_tySet (cd : CooldownRec) (ty : ActionType) (v : Nat) :
    tyGet (tySet cd ty v) ty = v := by
  cases ty <;> rfl

/-- Acceptance always leaves a cooldown entry whose per-kind timestamp is
the acceptance time (no hypothesis on the prior entries). -/
theorem checkCooldown_accept_stamp (g : GuardState) (p : PlayerId) (ty : ActionType)
    (now : Nat) (hacc : (checkCooldown g p ty now).1.allowed = true) :
    ∃ cd', (checkCooldown g p ty now).2.cooldowns p = some cd' ∧ tyGet cd' ty = now := by
  unfold checkCooldown cooldownPhase at hacc ⊢
  by_cases hroll :
      SPAM_WINDOW < now - ((g.spamCounts p).getD { count := 0, lastReset := now }).lastReset
  · rw [if_pos hroll] at hacc ⊢
    by_cases hrem : (0 : Int) <
        (tyGet ((g.cooldowns p).getD { guess := 0, message := 0 }) ty : Int) +
          (LAST_GUESS_TIMEOUT : Int) - (now : Int)
    · rw [if_pos hrem] at hacc
      exact absurd hacc (by simp)
    · rw [if_neg hrem]
      refine ⟨tySet ((g.cooldowns p).getD { guess := 0, message := 0 }) ty now,
        by simp [upd], tyGet_tySet _ ty now⟩
  · rw [if_neg hroll] at hacc ⊢
    by_cases hcnt :
        SPAM_LIMIT ≤ ((g.spamCounts p).getD { count := 0, lastReset := now }).count
    · rw [if_pos hcnt] at hacc
      exact absurd hacc (by simp)
    · rw [if_neg hcnt] at hacc ⊢
      by_cases hrem : (0 : Int) <
          (tyGet ((g.cooldowns p).getD { guess := 0, message := 0 }) ty : Int) +
            (LAST_GUESS_TIMEOUT : Int) - (now : Int)
      · rw [if_pos hrem] at hacc
        exact absurd hacc (by simp)
      · rw [if_neg hrem]
        refine ⟨tySet ((g.cooldowns p).getD { guess := 0, message := 0 }) ty now,
          by simp [upd], tyGet_tySet _ ty now⟩

/-- C5 (amended): `resetSpamCounter` clears only the burst/spam-window
record of the player: the player's spam entry is deleted (the burst window
restarts from scratch), all cooldown timestamp records — the player's
included — survive, and other players' spam records are untouched.
Consequently a later same-kind action within 1000 ms of the player's last
accepted pre-reset action is still rejected, unlike a first-ever action. -/
theorem C5_reset_clears_only_spam (g : GuardState) (p q : PlayerId) (ty : ActionType)
    (now : Nat) (cd : CooldownRec) (hcd : g.cooldowns p = some cd)
    (hlt : now < tyGet cd ty + LAST_GUESS_TIMEOUT) :
    (resetSpamCounter g p).spamCounts p = none ∧
    (resetSpamCounter g p).cooldowns q = g.cooldowns q ∧
    (q ≠ p → (resetSpamCounter g p).spamCounts q = g.spamCounts q) ∧
    (checkCooldown (resetSpamCounter g p) p ty now).1.allowed = false := by
  refine ⟨by simp [resetSpamCounter, upd], by simp [resetSpamCounter], ?_, ?_⟩
  · intro hq
    simp [resetSpamCounter, upd, hq]
  · exact checkCooldown_stamp_active_rejects _ p ty now cd (by simpa [resetSpamCounter] using hcd) hlt

/-- C5 witness: the amended reset frame conditions evaluated at the concrete
post-accept guard state `c5Guard`. -/
theorem C5_reset_clears_only_spam_witness :
    (resetSpamCounter c5Guard 1).spamCounts 1 = none ∧
    (resetSpamCounter c5Guard 1).cooldowns 2 = c5Guard.cooldowns 2 ∧
    ((2 : PlayerId) ≠ 1 → (resetSpamCounter c5Guard 1).spamCounts 2 = c5Guard.spamCounts 2) ∧
    (checkCooldown (resetSpamCounter c5Guard 1) 1 ActionType.guess 10500).1.allowed = false :=
  C5_reset_clears_only_spam c5Guard 1 2 ActionType.guess 10500
    { guess := 10000, message := 0 } (by decide) (by decide)

/-- A reason for which `submitGuess` silently drops a guess after the
anti-cheat check has already run: unknown room, room not playing, missing
round state, the submitter is the drawer, or the submitter already guessed. -/
def gameStateDrop (s : ServerState) (roomCode : String) (pid : PlayerId) : Prop :=
  s.rooms roomCode = none ∨
  ∃ room, s.rooms roomCode = some room ∧
    (room.state ≠ RoomPhase.playing ∨
     room.gameState = none ∨
     ∃ gs, room.gameState = some gs ∧
       (some pid = gs.currentDrawer ∨ gs.playersWhoGuessed.contains pid = true))

/-- C10: for a known player the anti-cheat check of `submitGuess` runs
before the room-existence, playing-state, drawer and already-guessed checks:
a rate-limiter rejection leaves the rooms map (hence all room and score
state) unchanged with no emissions, while an accepted check commits its
guard update — the guess timestamp is set to the action time — even when the
guess is then silently dropped for any game-state reason, which again
leaves the rooms map unchanged and emits nothing. -/
theorem C10_guard_ordering
    (env : Env) (s : ServerState) (pid : PlayerId) (guess : String) (now : Nat)
    (pinfo : PlayerInfo)
    (hp : s.players pid = some pinfo) :
    ((checkCooldown s.guard pid ActionType.guess now).1.allowed = false →
      (submitGuess env s pid guess now).1.rooms = s.rooms ∧
      (submitGuess env s pid guess now).1.guard =
        (checkCooldown s.guard pid ActionType.guess now).2 ∧
      (submitGuess env s pid guess now).2 = []) ∧
    ((checkCooldown s.guard pid ActionType.guess now).1.allowed = true →
      gameStateDrop s pinfo.room pid →
      ((submitGuess env s pid guess now).1.rooms = s.rooms ∧
       (submitGuess env s pid guess now).1.guard =
         (checkCooldown s.guard pid ActionType.guess now).2 ∧
       (∃ cd', (submitGuess env s pid guess now).1.guard.cooldowns pid = some cd' ∧
          tyGet cd' ActionType.guess = now) ∧
       (submitGuess env s pid guess now).2 = [])) := by
  constructor
  · intro hF
    unfold submitGuess
    simp only [hp, hF, eq_self_iff_true, if_true, ite_true]
    exact ⟨by trivial, by trivial, by trivial⟩
  · intro hT hdrop
    have hstamp := checkCooldown_accept_stamp s.guard pid ActionType.guess now hT
    rcases hdrop with hnone | ⟨room, hsome, hreason⟩
    · unfold submitGuess
      simp only [hp, hT, hnone, Bool.true_eq_false, if_false, ite_false]
      exact ⟨by trivial, by trivial, hstamp, by trivial⟩
    · by_cases hstp : room.state = RoomPhase.playing
      · rcases hreason with hne | hgnone | ⟨gs, hgs, hdg⟩
        · exact absurd hstp hne
        · unfold submitGuess
          simp only [hp, hT, hsome, hstp, hgnone, Bool.true_eq_false, if_false, ite_false,
            ne_eq, not_true_eq_false]
          exact ⟨by trivial, by trivial, hstamp, by trivial⟩
        · by_cases hdcase : some pid = gs.currentDrawer
          · unfold submitGuess
            simp only [hp, hT, hsome, hstp, hgs, hdcase, Bool.true_eq_false, if_false,
              ite_false, ne_eq, not_true_eq_false, eq_self_iff_true, if_true, ite_true]
            exact ⟨by trivial, by trivial, hstamp, by trivial⟩
          · rcases hdg with hdraw | hguessed
            · exact absurd hdraw hdcase
            · unfold submitGuess
              simp only [hp, hT, hsome, hstp, hgs, hdcase, hguessed, Bool.true_eq_false,
                if_false, ite_false, ne_eq, not_true_eq_false, eq_self_iff_true, if_true,
                ite_true]
              exact ⟨by trivial, by trivial, hstamp, by trivial⟩
      · unfold submitGuess
        simp only [hp, hT, hsome, Bool.true_eq_false, if_false, ite_false]
        rw [if_pos hstp]
        exact ⟨by trivial, by trivial, hstamp, by trivial⟩

/-- C10 witness: a fresh player in no-room limbo — the reverse index names a
room that does not exist — submits a guess; the check is accepted (and the
timestamp recorded) but the guess is dropped with no emissions and no room
change. -/
def c10State : ServerState :=
  { initState with
    players := upd initState.players 2
      (some { room := "GONE", name := "bob", isHost := false, avatar := 8 }) }

theorem C10_guard_ordering_witness :
    (submitGuess envZ c10State 2 "apple" 20000).1.rooms = c10State.rooms ∧
    (submitGuess envZ c10State 2 "apple" 20000).1.guard =
      (checkCooldown c10State.guard 2 ActionType.guess 20000).2 ∧
    (∃ cd', (submitGuess envZ c10State 2 "apple" 20000).1.guard.cooldowns 2 = some cd' ∧
       tyGet cd' ActionType.guess = 20000) ∧
    (submitGuess envZ c10State 2 "apple" 20000).2 = [] :=
  (C10_guard_ordering envZ c10State 2 "apple" 20000
    { room := "GONE", name := "bob", isHost := false, avatar := 8 } rfl).2
    (by decide) (Or.inl rfl)

/-- C7 (amended): for a fresh player, six actions inside one 5000 ms spam
window with accepted same-kind actions at least 1000 ms apart yield exactly
5 accepted and 1 rejected; any same-kind action 999 ms after an ACCEPTED one
is rejected (the literal claim fails when the earlier action was itself
rejected, see the counterexample); a rejected action of a tracked player
leaves the per-kind timestamps unchanged and leaves the burst record
unchanged unless the 5000 ms window has rolled over, in which case the
burst record is reset to a fresh window starting at the action time; an
accepted action sets the per-kind timestamp to the action time and
increments the burst counter. -/
theorem C7_rate_limit_amended :
    ((runGuard 1 emptyGuard c7WindowSeq).2 = [true, true, true, true, true, false]) ∧
    (∀ g p ty t, (checkCooldown g p ty t).1.allowed = true →
      (checkCooldown (checkCooldown g p ty t).2 p ty (t + 999)).1.allowed = false) ∧
    (∀ g p ty now cd sc, g.cooldowns p = some cd → g.spamCounts p = some sc →
      (checkCooldown g p ty now).1.allowed = false →
      ((checkCooldown g p ty now).2.cooldowns = g.cooldowns ∧
       (now - sc.lastReset ≤ SPAM_WINDOW →
         (checkCooldown g p ty now).2.spamCounts = g.spamCounts) ∧
       (SPAM_WINDOW < now - sc.lastReset →
         (checkCooldown g p ty now).2.spamCounts p = some { count := 0, lastReset := now }))) ∧
    (∀ g p ty now cd sc, g.cooldowns p = some cd → g.spamCounts p = some sc →
      (checkCooldown g p ty now).1.allowed = true →
      ((checkCooldown g p ty now).2.cooldowns p = some (tySet cd ty now) ∧
       (checkCooldown g p ty now).2.spamCounts p = some
         { count := (if SPAM_WINDOW < now - sc.lastReset then 0 else sc.count) + 1,
           lastReset := if SPAM_WINDOW < now - sc.lastReset then now else sc.lastReset })) := by
  refine ⟨by decide, ?_, ?_, ?_⟩
  · intro g p ty t hacc
    obtain ⟨cd', hcd', hstamp⟩ := checkCooldown_accept_stamp g p ty t hacc
    exact checkCooldown_stamp_active_rejects _ p ty (t + 999) cd' hcd'
      (by simp only [hstamp, LAST_GUESS_TIMEOUT]; omega)
  · intro g p ty now cd sc hc hs hrej
    exact checkCooldown_reject_frame g p ty now cd sc hc hs hrej
  · intro g p ty now cd sc hc hs hacc
    exact checkCooldown_accept_updates g p ty now cd sc hc hs hacc

/-- C7 witness: the amended cooldown consequence instantiated concretely — a
fresh player's guess at 10000 is accepted and the follow-up guess at 10999
is rejected. -/
theorem C7_rate_limit_amended_witness :
    (checkCooldown (checkCooldown emptyGuard 1 ActionType.guess 10000).2
      1 ActionType.guess (10000 + 999)).1.allowed = false :=
  C7_rate_limit_amended.2.1 emptyGuard 1 ActionType.guess 10000 (by decide)

theorem clearIntervalS_rooms (st : ServerState) (h : Option Nat) :
    (clearIntervalS st h).rooms = st.rooms := by
  cases h <;> rfl

/-- C3 (amended): on every correct guess the guesser's cumulative total
grows by the binary64 evaluation of `Math.floor(100 * (timer / roundTime))`
and the drawer's by half of that, floored — and whenever that evaluation
agrees with the exact rational `floor(100 * timer / roundTime)` (the
float-exact instances, which include `roundTime = 60`, `timer = 45`), the
increases are exactly `floor(100 * t / T)` and `floor(that * 0.5)`,
accumulating onto prior totals, never overwriting.  (At non-float-exact
inputs the increase falls below the exact floor: see the
counterexample.) -/
theorem C3_correct_guess_scoring
    (env : Env) (s : ServerState) (pid : PlayerId) (guess : String) (now : Nat)
    (pinfo : PlayerInfo) (room : Room) (gs : GameState) (d : PlayerId)
    (hp : s.players pid = some pinfo)
    (hallow : (checkCooldown s.guard pid ActionType.guess now).1.allowed = true)
    (hr : s.rooms pinfo.room = some room)
    (hst : room.state = RoomPhase.playing)
    (hgs : room.gameState = some gs)
    (hd : gs.currentDrawer = some d)
    (hnd : pid ≠ d)
    (hng : gs.playersWhoGuessed.contains pid = false)
    (hmatch : lowerStr guess = lowerStr gs.word)
    (hT : 0 < gs.roundTime)
    (hfe : calculateScore gs.timer gs.roundTime =
      Int.fdiv (100 * gs.timer) (gs.roundTime : Int)) :
    (((submitGuess env s pid guess now).1.rooms pinfo.room).bind Room.gameState).map
        (fun g1 => (g1.scores pid, g1.scores d)) =
      some (some ((gs.scores pid).getD 0 + Int.fdiv (100 * gs.timer) (gs.roundTime : Int)),
            some ((gs.scores d).getD 0 +
              Int.fdiv (Int.fdiv (100 * gs.timer) (gs.roundTime : Int)) 2)) := by
  have hd' : d ≠ pid := Ne.symm hnd
  unfold submitGuess
  simp only [hp, hallow, hr, hst, hgs, hd, hng, hmatch, Option.some.injEq, hnd,
    Option.getD_some, ne_eq, not_true_eq_false, Bool.true_eq_false, Bool.false_eq_true,
    if_false, if_true, ite_true, ite_false, eq_self_iff_true]
  split
  · simp [clearIntervalS_rooms, upd, hnd, hd', hfe]
  · simp [upd, hnd, hd', hfe]

/-- C3 witness data: room `WXYZ`, 3 players, drawer 1, word `APPLE`,
`roundTime = 60`, `timer = 45`, prior totals 10 (guesser) and 20 (drawer). -/
def c3GS : GameState :=
  { rounds := 3, currentRound := 1, roundTime := 60, difficulty := "easy",
    scores := upd (upd (fun _ => none) 2 (some 10)) 1 (some 20),
    playersWhoGuessed := [], allPlayers := [1, 2, 3],
    avatars := fun _ => none, currentDrawer := some 1, word := "APPLE", timer := 45 }

def c3Room : Room :=
  { players := [{ id := 1, name := "alice", isHost := true, avatar := 7 },
                { id := 2, name := "bob", isHost := false, avatar := 8 },
                { id := 3, name := "carol", isHost := false, avatar := 9 }],
    host := 1, state := RoomPhase.playing, settings := none,
    gameState := some c3GS, timerInterval := none }

def c3State : ServerState :=
  { initState with
    rooms := upd initState.rooms "WXYZ" (some c3Room),
    players := upd initState.players 2
      (some { room := "WXYZ", name := "bob", isHost := false, avatar := 8 }) }

/-- C3 witness: the spec's scenario — a guess at 45 seconds remaining of 60
earns the guesser `floor(100*45/60) = 75` on top of the prior 10 and the
drawer `floor(75*0.5) = 37` on top of the prior 20. -/
theorem C3_correct_guess_scoring_witness :
    (((submitGuess envZ c3State 2 "apple" 20000).1.rooms "WXYZ").bind Room.gameState).map
        (fun g1 => (g1.scores 2, g1.scores 1)) = some (some 85, some 57) :=
  (C3_correct_guess_scoring envZ c3State 2 "apple" 20000
      { room := "WXYZ", name := "bob", isHost := false, avatar := 8 } c3Room c3GS 1
      rfl (by decide) rfl rfl rfl rfl (by decide) (by decide) (by decide) (by decide)
      (by decide)).trans
    (by decide)

/-- C3 counterexample data: a playing room with `roundTime = 100` and the
guess submitted at `timer = 29`. -/
def c3CtrGS : GameState :=
  { rounds := 3, currentRound := 1, roundTime := 100, difficulty := "easy",
    scores := fun _ => none, playersWhoGuessed := [], allPlayers := [1, 2, 3],
    avatars := fun _ => none, currentDrawer := some 1, word := "APPLE", timer := 29 }

def c3CtrRoom : Room :=
  { players := [{ id := 1, name := "alice", isHost := true, avatar := 7 },
                { id := 2, name := "bob", isHost := false, avatar := 8 },
                { id := 3, name := "carol", isHost := false, avatar := 9 }],
    host := 1, state := RoomPhase.playing, settings := none,
    gameState := some c3CtrGS, timerInterval := none }

def c3CtrState : ServerState :=
  { initState with
    rooms := upd initState.rooms "WXYZ" (some c3CtrRoom),
    players := upd initState.players 2
      (some { room := "WXYZ", name := "bob", isHost := false, avatar := 8 }) }

/-- C3 counterexample: the claim says every correct guess increases the
guesser's total by exactly `floor(100 * t / T)`.  At the reachable
submission `timer = 29` of `roundTime = 100` the binary64 evaluation
`Math.floor(100 * (29 / 100))` yields 28 (the double nearest 29/100 lies
just below it, and 100 times it rounds to 28.999999999999996), one below
the exact `floor(100 * 29 / 100) = 29`: the guesser's total becomes 28,
not 29. -/
theorem C3_float_floor_counterexample :
    (((submitGuess envZ c3CtrState 2 "apple" 20000).1.rooms "WXYZ").bind Room.gameState).map
        (fun g1 => g1.scores 2) = some (some 28) ∧
    Int.fdiv (100 * 29) (100 : Int) = 29 := by
  refine ⟨by decide, by decide⟩

theorem joinSpace_length : ∀ (l : List String), (∀ x ∈ l, x.length = 1) →
    (joinSpace l).length = 2 * l.length - 1
  | [], _ => rfl
  | [x], h => by
    have hx := h x (by simp)
    simp [joinSpace, hx]
  | x :: y :: t, h => by
    have hx := h x (by simp)
    have ih := joinSpace_length (y :: t) (fun z hz => h z (by simp [hz]))
    have hl : (joinSpace (x :: y :: t)) = x ++ " " ++ joinSpace (y :: t) := rfl
    have hsp : (" " : String).length = 1 := rfl
    rw [hl]
    simp only [String.length_append, hx, ih, hsp, List.length_cons]
    omega

/-- The masked rendering interleaves single-character cells with spaces, so
its length is `2 * word.length - 1` whatever positions were revealed. -/
theorem maskWord_length (word : String) (hw : word ≠ "") (rand : Nat → Nat) (ri : Nat) :
    (maskWord word rand ri).1.length = 2 * word.length - 1 := by
  unfold maskWord
  rw [if_neg hw]
  have htl : word.toList.length = word.length := rfl
  rw [joinSpace_length]
  · simp [htl]
  · intro x hx
    simp only [List.mem_map] at hx
    obtain ⟨ic, _, hxeq⟩ := hx
    rw [← hxeq]
    by_cases hc : (maskWordLoop (word.toList.length * word.toList.length +
        word.toList.length + 1) word.toList.length
        (max 1 (word.toList.length * 3 / 10)) [0] rand ri).1.contains ic.1
    · rw [if_pos hc]
      rfl
    · rw [if_neg hc]
      rfl

/-- A masked rendering of a word of length at least 2 is never the literal
word (the lengths differ). -/
theorem maskWord_ne (word : String) (h2 : 2 ≤ word.length) (rand : Nat → Nat) (ri : Nat) :
    (maskWord word rand ri).1 ≠ word := by
  have hw : word ≠ "" := by
    intro h
    rw [h] at h2
    simp at h2
  intro he
  have hlen := maskWord_length word hw rand ri
  rw [he] at hlen
  omega

/-- Does the emission list carry a `correctGuess` to the room-minus-sender
audience whose guess field is the literal string `w`? -/
def othersSeeGuess (l : List Emit) (room : String) (sender : PlayerId) (w : String) : Bool :=
  l.any (fun e =>
    match e with
    | Emit.fromSenderToRoom r sd (Msg.correctGuess _ g _ _) => r == room && sd == sender && g == w
    | _ => false)

/-- C6 counterexample input: a 2-player room; the non-drawer guesses
correctly. -/
def c6Trace : List Event :=
  [Event.createRoom 1 "alice" 7,
   Event.joinRoom 2 "AAAA" "bob" 8,
   Event.startGame 1 { rounds := 3, roundTime := 60, difficulty := "easy" } 20000,
   Event.submitGuess 2 "apple" 20100]

def c6Run : ServerState × List Emit := run envZ initState c6Trace

/-- C6 counterexample: the claim says that on every accepted correct guess
every other room member — in rooms of any size of at least 2 players —
receives a masked rendering of the word, never the literal word.  In a
2-player room the `submitGuess` handler takes the `room.players.length > 2 ?
maskWord(...) : word` else-branch, so the one other member receives the
literal word `apple` in its `correctGuess` event. -/
theorem C6_two_player_literal_counterexample :
    othersSeeGuess c6Run.2 "AAAA" 2 "apple" = true ∧
    ((c6Run.1.rooms "AAAA").map (fun r => r.players.length)) = some 2 := by
  refine ⟨by decide, by decide⟩

/-- C6 (amended): on every accepted correct guess the guesser receives the
literal word; when the room has MORE than 2 players every other member
receives the masked rendering (which differs from the literal word whenever
the word has at least 2 characters); in a 2-player room the single other
member receives the literal word. -/
theorem C6_masking_amended
    (env : Env) (s : ServerState) (pid : PlayerId) (guess : String) (now : Nat)
    (pinfo : PlayerInfo) (room : Room) (gs : GameState)
    (hp : s.players pid = some pinfo)
    (hallow : (checkCooldown s.guard pid ActionType.guess now).1.allowed = true)
    (hr : s.rooms pinfo.room = some room)
    (hst : room.state = RoomPhase.playing)
    (hgs : room.gameState = some gs)
    (hndC : ¬(some pid = gs.currentDrawer))
    (hng : gs.playersWhoGuessed.contains pid = false)
    (hmatch : lowerStr guess = lowerStr gs.word) :
    (2 < room.players.length →
      (submitGuess env s pid guess now).2 =
        [Emit.toPlayer pid (Msg.correctGuess pinfo.name gs.word true
            (calculateScore gs.timer gs.roundTime)),
         Emit.fromSenderToRoom pinfo.room pid (Msg.correctGuess pinfo.name
            (maskWord gs.word env.rand s.randIdx).1 false
            (calculateScore gs.timer gs.roundTime))]) ∧
    (room.players.length ≤ 2 →
      (submitGuess env s pid guess now).2 =
        [Emit.toPlayer pid (Msg.correctGuess pinfo.name gs.word true
            (calculateScore gs.timer gs.roundTime)),
         Emit.fromSenderToRoom pinfo.room pid (Msg.correctGuess pinfo.name gs.word false
            (calculateScore gs.timer gs.roundTime))]) ∧
    (2 ≤ gs.word.length → (maskWord gs.word env.rand s.randIdx).1 ≠ gs.word) := by
  unfold submitGuess
  simp only [hp, hallow, hr, hst, hgs, hng, hmatch, hndC, Option.getD_some, ne_eq,
    not_true_eq_false, Bool.true_eq_false, Bool.false_eq_true,
    if_false, if_true, ite_true, ite_false, eq_self_iff_true]
  refine ⟨?_, ?_, fun hw => maskWord_ne gs.word hw env.rand s.randIdx⟩
  · intro hlen
    rw [if_pos hlen]
    split
    · rfl
    · rfl
  · intro hlen
    rw [if_neg (by omega : ¬(2 < room.players.length))]
    split
    · rfl
    · rfl

/-- C6 witness data: a 3-player playing room with drawer 1 and word
`APPLE`. -/
def c6WGS : GameState :=
  { rounds := 3, currentRound := 1, roundTime := 60, difficulty := "easy",
    scores := fun _ => none, playersWhoGuessed := [], allPlayers := [1, 2, 3],
    avatars := fun _ => none, currentDrawer := some 1, word := "APPLE", timer := 45 }

def c6WRoom : Room :=
  { players := [{ id := 1, name := "alice", isHost := true, avatar := 7 },
                { id := 2, name := "bob", isHost := false, avatar := 8 },
                { id := 3, name := "carol", isHost := false, avatar := 9 }],
    host := 1, state := RoomPhase.playing, settings := none,
    gameState := some c6WGS, timerInterval := none }

def c6WState : ServerState :=
  { initState with
    rooms := upd initState.rooms "WXYZ" (some c6WRoom),
    players := upd initState.players 2
      (some { room := "WXYZ", name := "bob", isHost := false, avatar := 8 }) }

/-- C6 witness: in the 3-player room the other members' `correctGuess` event
carries the masked rendering `A _ _ _ _`, which is not the literal word. -/
theorem C6_masking_amended_witness :
    othersSeeGuess (submitGuess envZ c6WState 2 "apple" 20000).2 "WXYZ" 2 "A _ _ _ _" = true ∧
    (maskWord "APPLE" envZ.rand 0).1 ≠ "APPLE" := by
  have h := C6_masking_amended envZ c6WState 2 "apple" 20000
    { room := "WXYZ", name := "bob", isHost := false, avatar := 8 } c6WRoom c6WGS
    rfl (by decide) rfl rfl rfl (by decide) (by decide) (by decide)
  constructor
  · rw [h.1 (by decide)]
    decide
  · exact h.2.2 (by decide)

/-- C8 counterexample input: two `createRoom` calls whose code draws
coincide; the second room silently replaces the first. -/
def c8Trace : List Event :=
  [Event.createRoom 1 "alice" 7, Event.createRoom 2 "bob" 8]

def c8Run : ServerState × List Emit := run envZ initState c8Trace

/-- C8 counterexample: the claim says a code colliding with a live room is
resolved by regenerating the code before the room is created.  The
`createRoom` handler performs no collision check: when the second call's
draws produce the same code `AAAA` as the live first room, the new room is
installed under that code, clobbering the first room — afterwards the roster
under `AAAA` is `[2]` while player 1's reverse-index entry still points at
`AAAA`. -/
theorem C8_collision_overwrite_counterexample :
    ((c8Run.1.rooms "AAAA").map Room.host) = some 2 ∧
    ((c8Run.1.rooms "AAAA").map (fun r => r.players.map Player.id)) = some [2] ∧
    ((c8Run.1.players 1).map PlayerInfo.room) = some "AAAA" := by
  refine ⟨by decide, by decide, by decide⟩

/-- C9 counterexample input: a player who already owns a room joins a second
room; both live rosters now contain the player. -/
def c9Trace : List Event :=
  [Event.createRoom 1 "alice" 7,
   Event.createRoom 2 "bob" 8,
   Event.joinRoom 1 "EFGH" "alice" 7]

def c9Run : ServerState × List Emit := run envI initState c9Trace

theorem getD_mem_of_mem {α : Type} (l : List α) (d : α) (hd : d ∈ l) (n : Nat) :
    l.getD n d ∈ l := by
  by_cases h : n < l.length
  · rw [List.getD_eq_getElem l d h]
    exact List.getElem_mem h
  · rw [List.getD_eq_default l d (Nat.le_of_not_lt h)]
    exact hd

theorem roomCodeChars_contains_getD (n : Nat) :
    roomCodeChars.contains (roomCodeChars.getD n 'A') = true := by
  have hmem : roomCodeChars.getD n 'A' ∈ roomCodeChars :=
    getD_mem_of_mem _ _ (by decide) n
  exact List.elem_iff.mpr hmem

/-- C8 (amended): every generated room code is a 4-character string over the
24-letter alphabet `ABCDEFGHJKLMNPQRSTUVWXYZ` (which indeed contains none of
I, O, 0, 1), but no uniqueness check is performed: `createRoom` installs the
new room under the generated code unconditionally, replacing any live room
that already used that code. -/
theorem C8_room_code_amended :
    (∀ env ri, (generateRoomCode env ri).1.length = 4 ∧
      (generateRoomCode env ri).1.toList.all (fun c => roomCodeChars.contains c) = true) ∧
    ('I' ∉ roomCodeChars ∧ 'O' ∉ roomCodeChars ∧ '0' ∉ roomCodeChars ∧ '1' ∉ roomCodeChars) ∧
    (∀ env s pid name av,
      (createRoom env s pid name av).1.rooms (generateRoomCode env s.randIdx).1 =
        some { players := [{ id := pid, name := name, isHost := true, avatar := av }],
               host := pid, state := RoomPhase.lobby, settings := none,
               gameState := none, timerInterval := none }) := by
  refine ⟨?_, ⟨by decide, by decide, by decide, by decide⟩, ?_⟩
  · intro env ri
    refine ⟨rfl, ?_⟩
    show (List.all [_, _, _, _] _) = true
    simp only [List.all_cons, List.all_nil, Bool.and_eq_true, Bool.and_true]
    exact ⟨roomCodeChars_contains_getD _, roomCodeChars_contains_getD _,
      roomCodeChars_contains_getD _, roomCodeChars_contains_getD _⟩
  · intro env s pid name av
    simp [createRoom, upd]

/-- The ids on a live room's roster (empty for a dead room code). -/
def roster (s : ServerState) (c : String) : List PlayerId :=
  match s.rooms c with
  | none => []
  | some r => r.players.map Player.id

/-- The single-membership invariant: a player id is on the roster of a room
code exactly when the reverse index maps the player to that code.  (This
forces each player into at most one live roster.) -/
def MembershipInv (s : ServerState) : Prop :=
  ∀ p c, p ∈ roster s c ↔ ∃ pi, s.players p = some pi ∧ pi.room = c

/-- The precondition under which the membership invariant is preserved: the
acting player of a `createRoom`/`joinRoom` is not already a member of any
room (and the generated code is not live — the collision case is the C8
overwrite bug); a disconnect needs nothing. -/
def SafeJoinEvent (env : Env) (s : ServerState) : Event → Prop
  | Event.createRoom pid _ _ =>
      s.players pid = none ∧ s.rooms (generateRoomCode env s.randIdx).1 = none
  | Event.joinRoom pid _ _ _ => s.players pid = none
  | Event.disconnect _ _ => True
  | _ => False

theorem roster_clearIntervalS (s : ServerState) (h : Option Nat) (c : String) :
    roster (clearIntervalS s h) c = roster s c := by
  cases h <;> rfl

theorem players_clearIntervalS (s : ServerState) (h : Option Nat) :
    (clearIntervalS s h).players = s.players := by
  cases h <;> rfl

theorem roster_upd_same_players (s : ServerState) (rc : String) (room room1 : Room)
    (hm : s.rooms rc = some room) (hpl : room1.players = room.players) (c : String)
    (f : ServerState) (hf : f.rooms = upd s.rooms rc (some room1)) :
    roster f c = roster s c := by
  unfold roster
  rw [hf]
  by_cases hc : c = rc
  · subst hc
    rw [hm]
    simp [upd, hpl]
  · simp [upd, hc]

theorem roster_set_activeWords (s : ServerState) (aw : ActiveWords) (c : String) :
    roster { s with activeWords := aw } c = roster s c := rfl

theorem endGame_frame (s : ServerState) (rc : String) :
    (∀ c, roster (endGame s rc).1 c = roster s c) ∧
    (endGame s rc).1.players = s.players := by
  cases hm : s.rooms rc with
  | none =>
    have h1 : (endGame s rc).1 = s := by
      unfold endGame
      rw [hm]
    rw [h1]
    exact ⟨fun c => rfl, rfl⟩
  | some room =>
    have h1 : (endGame s rc).1 =
        { s with rooms := upd s.rooms rc (some { room with state := RoomPhase.ended }) } := by
      unfold endGame
      simp only [hm]
      cases room.gameState <;> rfl
    rw [h1]
    refine ⟨fun c => ?_, rfl⟩
    exact roster_upd_same_players s rc room { room with state := RoomPhase.ended } hm rfl c _ rfl

theorem endRound_frame (s : ServerState) (rc : String) (now : Nat) :
    (∀ c, roster (endRound s rc now).1 c = roster s c) ∧
    (endRound s rc now).1.players = s.players := by
  cases hm : s.rooms rc with
  | none =>
    have h1 : (endRound s rc now).1 = s := by
      unfold endRound
      rw [hm]
    rw [h1]
    exact ⟨fun c => rfl, rfl⟩
  | some room =>
    cases hgs : room.gameState with
    | none =>
      have h1 : (endRound s rc now).1 = clearIntervalS s room.timerInterval := by
        unfold endRound
        simp only [hm, hgs]
      rw [h1]
      exact ⟨fun c => roster_clearIntervalS s room.timerInterval c,
        players_clearIntervalS s room.timerInterval⟩
    | some gs =>
      by_cases hend : gs.rounds ≤ gs.currentRound
      · have h1 : (endRound s rc now).1 =
            (endGame { clearIntervalS s room.timerInterval with
              activeWords :=
                releaseWord (clearIntervalS s room.timerInterval).activeWords gs.word } rc).1 := by
          unfold endRound
          simp only [hm, hgs, if_pos hend]
        rw [h1]
        constructor
        · intro c
          rw [(endGame_frame _ rc).1 c, roster_set_activeWords, roster_clearIntervalS]
        · rw [(endGame_frame _ rc).2]
          exact players_clearIntervalS s room.timerInterval
      · have h1 : (endRound s rc now).1 =
            { clearIntervalS s room.timerInterval with
              activeWords :=
                releaseWord (clearIntervalS s room.timerInterval).activeWords gs.word,
              rooms := upd (clearIntervalS s room.timerInterval).rooms rc
                (some
                  { room with
                    gameState := some ({ gs with currentRound := gs.currentRound + 1 }) }),
              timers := (clearIntervalS s room.timerInterval).timers ++
                [{ id := (clearIntervalS s room.timerInterval).nextTimerId, room := rc,
                   kind := TimerKind.interRound, fireAt := now + 3000 }],
              nextTimerId := (clearIntervalS s room.timerInterval).nextTimerId + 1 } := by
          unfold endRound
          simp only [hm, hgs, if_neg hend]
        rw [h1]
        constructor
        · intro c
          refine roster_upd_same_players s rc room
            { room with gameState := some ({ gs with currentRound := gs.currentRound + 1 }) }
            hm rfl c _ ?_
          rw [clearIntervalS_rooms]
        · exact players_clearIntervalS s room.timerInterval

/-- The membership invariant transfers along any state change that keeps
every roster and every reverse-index room assignment. -/
theorem membershipInv_transfer (s s1 : ServerState)
    (hr : ∀ c, roster s1 c = roster s c)
    (hpl : ∀ p, (s1.players p).map PlayerInfo.room = (s.players p).map PlayerInfo.room)
    (h : MembershipInv s) : MembershipInv s1 := by
  intro p c
  rw [hr c, h p c]
  constructor
  · rintro ⟨pi, hpi, hrm⟩
    have hmap := hpl p
    rw [hpi] at hmap
    cases hsp : s1.players p with
    | none =>
      rw [hsp] at hmap
      simp at hmap
    | some pi1 =>
      rw [hsp] at hmap
      simp only [Option.map_some', Option.some.injEq] at hmap
      exact ⟨pi1, rfl, hmap.trans hrm⟩
  · rintro ⟨pi1, hpi1, hrm⟩
    have hmap := hpl p
    rw [hpi1] at hmap
    cases hsp : s.players p with
    | none =>
      rw [hsp] at hmap
      simp at hmap
    | some pi =>
      rw [hsp] at hmap
      simp only [Option.map_some', Option.some.injEq] at hmap
      exact ⟨pi, rfl, hmap.symm.trans hrm⟩

theorem mem_map_filter_ne (l : List Player) (pid p : PlayerId) (hne : p ≠ pid) :
    (p ∈ (l.filter (fun q => q.id ≠ pid)).map Player.id) ↔ p ∈ l.map Player.id := by
  simp only [List.mem_map, List.mem_filter, decide_eq_true_eq]
  constructor
  · rintro ⟨a, ⟨ha, _⟩, rfl⟩
    exact ⟨a, ha, rfl⟩
  · rintro ⟨a, ha, rfl⟩
    exact ⟨a, ⟨ha, hne⟩, rfl⟩

theorem pid_not_mem_map_filter (l : List Player) (pid : PlayerId) :
    pid ∉ (l.filter (fun q => q.id ≠ pid)).map Player.id := by
  simp only [List.mem_map, List.mem_filter, decide_eq_true_eq]
  rintro ⟨a, ⟨_, hne⟩, hid⟩
  exact hne hid

/-- Dictionary update lemmas. -/
theorem upd_self {κ α : Type} [DecidableEq κ] (f : κ → Option α) (k : κ) (v : Option α) :
    upd f k v k = v := by
  simp [upd]

theorem upd_other {κ α : Type} [DecidableEq κ] (f : κ → Option α) (k q : κ) (v : Option α)
    (h : q ≠ k) : upd f k v q = f q := by
  simp [upd, h]

/-- Invariant preservation for `createRoom` when the creator is not already
a member and the generated code is not live. -/
theorem createRoom_inv (env : Env) (s : ServerState) (pid : PlayerId) (name : String)
    (av : Nat) (hInv : MembershipInv s) (hfresh : s.players pid = none)
    (hcode : s.rooms (generateRoomCode env s.randIdx).1 = none) :
    MembershipInv (createRoom env s pid name av).1 := by
  intro p c
  have hrooms : (createRoom env s pid name av).1.rooms =
      upd s.rooms (generateRoomCode env s.randIdx).1
        (some { players := [{ id := pid, name := name, isHost := true, avatar := av }],
                host := pid, state := RoomPhase.lobby, settings := none,
                gameState := none, timerInterval := none }) := rfl
  have hplayers : (createRoom env s pid name av).1.players =
      upd s.players pid
        (some
          { room := (generateRoomCode env s.randIdx).1, name := name, isHost := true,
            avatar := av }) := rfl
  unfold roster
  rw [hrooms, hplayers]
  by_cases hc : c = (generateRoomCode env s.randIdx).1
  · subst hc
    rw [upd_self]
    by_cases hp : p = pid
    · subst hp
      rw [upd_self]
      constructor
      · intro _
        exact ⟨_, rfl, rfl⟩
      · intro _
        simp
    · rw [upd_other _ _ _ _ hp]
      constructor
      · intro hmem
        simp at hmem
        exact absurd hmem hp
      · rintro ⟨pi, hpi, hrm⟩
        have hmem := (hInv p _).mpr ⟨pi, hpi, hrm⟩
        have hempty : roster s (generateRoomCode env s.randIdx).1 = [] := by
          unfold roster
          rw [hcode]
        rw [hempty] at hmem
        simp at hmem
  · rw [upd_other _ _ _ _ hc]
    by_cases hp : p = pid
    · subst hp
      rw [upd_self]
      constructor
      · intro hmem
        obtain ⟨pi, hpi, _⟩ := (hInv p c).mp hmem
        rw [hfresh] at hpi
        cases hpi
      · rintro ⟨pi, hpi, hrm⟩
        cases hpi
        exact absurd hrm.symm hc
    · rw [upd_other _ _ _ _ hp]
      exact hInv p c

/-- Invariant preservation for `joinRoom` when the joiner is not already a
member. -/
theorem joinRoom_inv (s : ServerState) (pid : PlayerId) (code : String) (name : String)
    (av : Nat) (hInv : MembershipInv s) (hfresh : s.players pid = none) :
    MembershipInv (joinRoom s pid code name av).1 := by
  cases hm : s.rooms code with
  | none =>
    have h1 : (joinRoom s pid code name av).1 = s := by
      unfold joinRoom
      rw [hm]
    rw [h1]
    exact hInv
  | some room =>
    by_cases hlob : room.state = RoomPhase.lobby
    · by_cases hful : 8 ≤ room.players.length
      · have h1 : (joinRoom s pid code name av).1 = s := by
          unfold joinRoom
          simp only [hm, hlob]
          simp [hful]
        rw [h1]
        exact hInv
      · have h1 : (joinRoom s pid code name av).1 = { s with
            rooms := upd s.rooms code
              (some { room with players := room.players ++
                [{ id := pid, name := name, isHost := false, avatar := av }] }),
            players := upd s.players pid
              (some { room := code, name := name, isHost := false, avatar := av }),
            playerAvatars := upd s.playerAvatars pid (some av) } := by
          unfold joinRoom
          simp only [hm, hlob]
          simp [hful]
        have hrooms : (joinRoom s pid code name av).1.rooms =
            upd s.rooms code
              (some { room with players := room.players ++
                [{ id := pid, name := name, isHost := false, avatar := av }] }) := by
          rw [h1]
        have hplayers : (joinRoom s pid code name av).1.players =
            upd s.players pid
              (some { room := code, name := name, isHost := false, avatar := av }) := by
          rw [h1]
        intro p c
        unfold roster
        rw [hrooms, hplayers]
        by_cases hc : c = code
        · subst hc
          rw [upd_self]
          by_cases hp : p = pid
          · subst hp
            rw [upd_self]
            constructor
            · intro _
              exact ⟨_, rfl, rfl⟩
            · intro _
              simp
          · rw [upd_other _ _ _ _ hp]
            constructor
            · intro hmem
              simp only [List.map_append, List.mem_append] at hmem
              rcases hmem with hmem | hmem
              · have hold := (hInv p c).mp (by
                  show p ∈ roster s c
                  unfold roster
                  rw [hm]
                  exact hmem)
                exact hold
              · simp at hmem
                exact absurd hmem hp
            · rintro ⟨pi, hpi, hrm⟩
              have hmem := (hInv p c).mpr ⟨pi, hpi, hrm⟩
              unfold roster at hmem
              rw [hm] at hmem
              simp only [List.map_append, List.mem_append]
              exact Or.inl hmem
        · rw [upd_other _ _ _ _ hc]
          by_cases hp : p = pid
          · subst hp
            rw [upd_self]
            constructor
            · intro hmem
              obtain ⟨pi, hpi, _⟩ := (hInv p c).mp (by
                show p ∈ roster s c
                unfold roster
                exact hmem)
              rw [hfresh] at hpi
              cases hpi
            · rintro ⟨pi, hpi, hrm⟩
              cases hpi
              exact absurd hrm.symm hc
          · rw [upd_other _ _ _ _ hp]
            exact hInv p c
    · have h1 : (joinRoom s pid code name av).1 = s := by
        unfold joinRoom
        simp only [hm]
        simp [hlob]
      rw [h1]
      exact hInv


/-- Ending a round (with its preceding `clearInterval`) never changes a
roster or the reverse index, so it preserves the membership invariant. -/
theorem endRound_clear_inv (s1 : ServerState) (h : Option Nat) (c0 : String) (now : Nat)
    (hInv : MembershipInv s1) :
    MembershipInv (endRound (clearIntervalS s1 h) c0 now).1 := by
  refine membershipInv_transfer s1 _ (fun c => ?_) (fun p => ?_) hInv
  · rw [(endRound_frame _ c0 now).1 c, roster_clearIntervalS]
  · rw [(endRound_frame _ c0 now).2, players_clearIntervalS]

/-- The host-transfer update changes only the `isHost` flag, never the room
assignment. -/
theorem host_players_room (s1 : ServerState) (nh : PlayerId) (p : PlayerId) :
    (if p = nh then (s1.players p).map (fun pi => { pi with isHost := true })
      else s1.players p).map PlayerInfo.room = (s1.players p).map PlayerInfo.room := by
  by_cases hp : p = nh
  · rw [if_pos hp]
    cases s1.players p <;> rfl
  · rw [if_neg hp]

/-- Invariant for the roster-shrinking core of the disconnect handler (the
`s1` state: player filtered out of the roster, reverse index entry
deleted). -/
theorem disconnect_s1_inv (s S : ServerState) (pid : PlayerId) (pinfo : PlayerInfo)
    (room : Room) (hInv : MembershipInv s) (hp : s.players pid = some pinfo)
    (hr : s.rooms pinfo.room = some room)
    (hSrooms : S.rooms = upd s.rooms pinfo.room
      (some { room with players := room.players.filter (fun q => q.id ≠ pid) }))
    (hSplayers : S.players = upd s.players pid none) :
    MembershipInv S := by
  intro p c
  unfold roster
  rw [hSrooms, hSplayers]
  by_cases hc : c = pinfo.room
  · subst hc
    rw [upd_self]
    by_cases hq : p = pid
    · rw [hq, upd_self]
      constructor
      · intro hmem
        exact absurd hmem (pid_not_mem_map_filter room.players pid)
      · rintro ⟨pi, hpi, _⟩
        cases hpi
    · rw [upd_other _ _ _ _ hq]
      constructor
      · intro hmem
        have hmem2 : p ∈ room.players.map Player.id :=
          (mem_map_filter_ne room.players pid p hq).mp hmem
        refine (hInv p pinfo.room).mp ?_
        unfold roster
        rw [hr]
        exact hmem2
      · rintro ⟨pi, hpi, hrm⟩
        have hmem := (hInv p pinfo.room).mpr ⟨pi, hpi, hrm⟩
        unfold roster at hmem
        rw [hr] at hmem
        exact (mem_map_filter_ne room.players pid p hq).mpr hmem
  · rw [upd_other _ _ _ _ hc]
    by_cases hq : p = pid
    · rw [hq, upd_self]
      constructor
      · intro hmem
        obtain ⟨pi, hpi, hrm⟩ := (hInv pid c).mp hmem
        rw [hp] at hpi
        cases hpi
        exact absurd hrm.symm hc
      · rintro ⟨pi, hpi, _⟩
        cases hpi
    · rw [upd_other _ _ _ _ hq]
      exact hInv p c

/-- Invariant for the empty-room deletion branch of the disconnect
handler. -/
theorem disconnect_empty_inv (s S : ServerState) (pid : PlayerId) (pinfo : PlayerInfo)
    (room : Room) (hInv : MembershipInv s) (hp : s.players pid = some pinfo)
    (hr : s.rooms pinfo.room = some room)
    (hrem0 : (room.players.filter (fun q => q.id ≠ pid)).length = 0)
    (hSrooms : S.rooms = upd (upd s.rooms pinfo.room
      (some { room with players := room.players.filter (fun q => q.id ≠ pid) }))
      pinfo.room none)
    (hSplayers : S.players = upd s.players pid none) :
    MembershipInv S := by
  intro p c
  unfold roster
  rw [hSrooms, hSplayers]
  by_cases hc : c = pinfo.room
  · subst hc
    rw [upd_self]
    by_cases hq : p = pid
    · rw [hq, upd_self]
      constructor
      · intro hmem
        exact absurd hmem (List.not_mem_nil _)
      · rintro ⟨pi, hpi, _⟩
        cases hpi
    · rw [upd_other _ _ _ _ hq]
      constructor
      · intro hmem
        exact absurd hmem (List.not_mem_nil _)
      · rintro ⟨pi, hpi, hrm⟩
        have hmem := (hInv p pinfo.room).mpr ⟨pi, hpi, hrm⟩
        unfold roster at hmem
        rw [hr] at hmem
        rw [List.length_eq_zero] at hrem0
        simp only [List.mem_map] at hmem
        obtain ⟨a, ha, haid⟩ := hmem
        have hnid := List.filter_eq_nil_iff.mp hrem0 a ha
        simp only [decide_eq_true_eq, not_not] at hnid
        exact (hq (haid ▸ hnid)).elim
  · rw [upd_other _ _ _ _ hc, upd_other _ _ _ _ hc]
    by_cases hq : p = pid
    · rw [hq, upd_self]
      constructor
      · intro hmem
        obtain ⟨pi, hpi, hrm⟩ := (hInv pid c).mp hmem
        rw [hp] at hpi
        cases hpi
        exact absurd hrm.symm hc
      · rintro ⟨pi, hpi, _⟩
        cases hpi
    · rw [upd_other _ _ _ _ hq]
      exact hInv p c

/-- Invariant preservation for the full disconnect handler (membership
removal, empty-room deletion, host transfer, drawer round end). -/
theorem disconnect_inv (s : ServerState) (pid : PlayerId) (now : Nat)
    (hInv : MembershipInv s) :
    MembershipInv (disconnectHandler s pid now).1 := by
  cases hp : s.players pid with
  | none =>
    unfold disconnectHandler
    rw [hp]
    exact hInv
  | some pinfo =>
    cases hr : s.rooms pinfo.room with
    | none =>
      unfold disconnectHandler
      simp only [hp, hr]
      exact hInv
    | some room =>
      unfold disconnectHandler
      simp only [hp, hr]
      by_cases hrem0 : (room.players.filter (fun q => q.id ≠ pid)).length = 0
      · rw [if_pos hrem0]
        exact disconnect_empty_inv s _ pid pinfo room hInv hp hr hrem0 rfl rfl
      · rw [if_neg hrem0]
        have hs1 : MembershipInv ({ s with
            rooms := upd s.rooms pinfo.room
              (some { room with players := room.players.filter (fun q => q.id ≠ pid) }),
            players := upd s.players pid none,
            playerAvatars := upd s.playerAvatars pid none,
            guard := resetSpamCounter s.guard pid } : ServerState) :=
          disconnect_s1_inv s _ pid pinfo room hInv hp hr rfl rfl
        by_cases hhost : pid = room.host
        · rw [if_pos hhost]
          cases hh : (room.players.filter (fun q => q.id ≠ pid)).head? with
          | none =>
            simp only [upd_self]
            by_cases hdrw : room.state = RoomPhase.playing ∧
                (room.gameState.bind fun gs => gs.currentDrawer) = some pid
            · rw [if_pos hdrw]
              exact endRound_clear_inv _ _ pinfo.room now hs1
            · rw [if_neg hdrw]
              exact hs1
          | some nh =>
            have hs2 : MembershipInv ({ s with
                rooms := upd (upd s.rooms pinfo.room
                  (some { room with players := room.players.filter (fun q => q.id ≠ pid) }))
                  pinfo.room
                  (some
                    { room with
                      players := room.players.filter (fun q => q.id ≠ pid),
                      host := nh.id }),
                players := fun q => if q = nh.id then
                    ((upd s.players pid none) q).map (fun pi => { pi with isHost := true })
                  else (upd s.players pid none) q,
                playerAvatars := upd s.playerAvatars pid none,
                guard := resetSpamCounter s.guard pid } : ServerState) := by
              refine membershipInv_transfer _ _ (fun c => ?_) (fun p => ?_) hs1
              · refine roster_upd_same_players _ pinfo.room
                  { room with players := room.players.filter (fun q => q.id ≠ pid) }
                  ({ room with
                      players := room.players.filter (fun q => q.id ≠ pid),
                      host := nh.id })
                  (upd_self _ _ _) rfl c _ rfl
              · exact host_players_room ({ s with
                  rooms := upd s.rooms pinfo.room
                    (some { room with players := room.players.filter (fun q => q.id ≠ pid) }),
                  players := upd s.players pid none,
                  playerAvatars := upd s.playerAvatars pid none,
                  guard := resetSpamCounter s.guard pid } : ServerState) nh.id p
            simp only [upd_self]
            by_cases hdrw : room.state = RoomPhase.playing ∧
                (room.gameState.bind fun gs => gs.currentDrawer) = some pid
            · rw [if_pos hdrw]
              exact endRound_clear_inv _ _ pinfo.room now hs2
            · rw [if_neg hdrw]
              exact hs2
        · rw [if_neg hhost]
          simp only [upd_self]
          by_cases hdrw : room.state = RoomPhase.playing ∧
              (room.gameState.bind fun gs => gs.currentDrawer) = some pid
          · rw [if_pos hdrw]
            exact endRound_clear_inv _ _ pinfo.room now hs1
          · rw [if_neg hdrw]
            exact hs1

/-- C9 (amended): the single-membership invariant — every player id lies on
the roster of exactly the room its reverse-index entry names, and hence in
at most one live room — is preserved by disconnects unconditionally, and by
`createRoom`/`joinRoom` PROVIDED the acting player is not already a member
of some room and (for `createRoom`) the generated code is not already live;
without those provisos the handlers break it, see the counterexample. -/
theorem C9_membership_invariant (env : Env) (s : ServerState) (e : Event)
    (hInv : MembershipInv s) (hsafe : SafeJoinEvent env s e) :
    MembershipInv (exec env s e).1 ∧
    (∀ p c1 c2, p ∈ roster (exec env s e).1 c1 → p ∈ roster (exec env s e).1 c2 →
      c1 = c2) := by
  have main : MembershipInv (exec env s e).1 := by
    cases e with
    | createRoom pid name av => exact createRoom_inv env s pid name av hInv hsafe.1 hsafe.2
    | joinRoom pid code name av => exact joinRoom_inv s pid code name av hInv hsafe
    | startGame pid st now => exact hsafe.elim
    | submitGuess pid g now => exact hsafe.elim
    | disconnect pid now => exact disconnect_inv s pid now hInv
    | fire tid now => exact hsafe.elim
  refine ⟨main, fun p c1 c2 h1 h2 => ?_⟩
  obtain ⟨pi1, hp1, hr1⟩ := (main p c1).mp h1
  obtain ⟨pi2, hp2, hr2⟩ := (main p c2).mp h2
  rw [hp1] at hp2
  cases hp2
  rw [← hr1, ← hr2]

/-- C9 witness: the amended invariant applied at the initial state and a
fresh `createRoom`. -/
theorem C9_membership_invariant_witness :
    MembershipInv (exec envI initState (Event.createRoom 1 "alice" 7)).1 ∧
    (∀ p c1 c2, p ∈ roster (exec envI initState (Event.createRoom 1 "alice" 7)).1 c1 →
      p ∈ roster (exec envI initState (Event.createRoom 1 "alice" 7)).1 c2 → c1 = c2) :=
  C9_membership_invariant envI initState (Event.createRoom 1 "alice" 7)
    (fun p c => by simp [roster, initState]) ⟨rfl, rfl⟩

/-- C9 counterexample: the claim says that after any sequence of
`createRoom`, `joinRoom` and disconnect operations no player id appears in
the rosters of two different live rooms.  Neither handler checks whether
the caller already belongs to a room, so after `c9Trace` (player 1 creates
room `ABCD`, player 2 creates room `EFGH`, player 1 joins `EFGH`) player 1
is in both live rosters, and the reverse index names only `EFGH`. -/
theorem C9_double_membership_counterexample :
    ((c9Run.1.rooms "ABCD").map (fun r => r.players.map Player.id)) = some [1] ∧
    ((c9Run.1.rooms "EFGH").map (fun r => r.players.map Player.id)) = some [2, 1] ∧
    ((c9Run.1.players 1).map PlayerInfo.room) = some "EFGH" := by
  refine ⟨by decide, by decide, by decide⟩

end Scribbly
